import Mathlib

/-!
Shallow embedding of the pgcat connection-pool core (src/pool.rs and
src/errors.rs) used to settle the specification claims.

Conventions of the embedding:
* Rust machine integers become Nat (unsigned) or Int (i64); all arithmetic
  performed by the source on these values stays well inside the machine
  range, so no explicit wrap-around modelling is needed.
* `chrono::NaiveDateTime` values are only ever compared through their
  `.timestamp()` seconds, so ban timestamps are stored directly as Int
  seconds.
* `HashMap` values (the per-shard ban map, the in-flight query map, the
  pool registry) become association lists; `insert` is modelled as
  cons-after-erase, which preserves the map semantics (distinct keys).
* Interior mutability (`Arc<RwLock<..>>`, `&self` methods that mutate) is
  modelled by explicit state passing: mutating methods return the updated
  `ConnectionPool`.
* External collaborators (bb8 checkout, the backend `Server` session, the
  health-check query, random shuffling) are suspension points whose
  outcomes are supplied by a `GetEnv` oracle.
-/

namespace Pgcat

/-- Modelled from the spec: server role, `role ∈ {Primary, Replica}`
(the `Role` enum lives in config.rs, which is not part of the analysed
sources). -/
inductive Role where
  | Primary
  | Replica
deriving DecidableEq, Repr

/-- Modelled from the spec: the identity of one backend endpoint
(`Address` lives in config.rs, which is not part of the analysed sources).
The spec lists: stable numeric id, host, port, role, shard index,
address_index, replica_number, database, username, pool name, mirrors and
an `AddressStats` handle.  The mirror list and the stats handle are pure
observability data never read by the pool core, so they are omitted here;
addresses are value-typed and compared by their full tuple. -/
structure Address where
  id : Nat
  host : String
  port : Nat
  role : Role
  shard : Nat
  address_index : Nat
  replica_number : Nat
  database : String
  username : String
  pool_name : String
deriving DecidableEq, Repr

/-- Reasons for banning a server (pool.rs `BanReason`). -/
inductive BanReason where
  | FailedHealthCheck
  | MessageSendFailed
  | MessageReceiveFailed
  | FailedCheckout
  | StatementTimeout
  | AdminBan (duration : Int)
deriving DecidableEq, Repr

/-- An identifier for a PgCat pool, a database visible to clients
(pool.rs `PoolIdentifier`). -/
structure PoolIdentifier where
  db : String
  user : String
deriving DecidableEq, Repr

/-- Create a new user/pool identifier (pool.rs `PoolIdentifier::new`). -/
def PoolIdentifier.new (db : String) (user : String) : PoolIdentifier :=
  { db := db, user := user }

/-- The error taxonomy of src/errors.rs. -/
inductive Error where
  | SocketError (msg : String)
  | ClientBadStartup
  | ProtocolSyncError (msg : String)
  | BadQuery (msg : String)
  | ServerError
  | BadConfig
  | AllServersDown
  | ClientError (msg : String)
  | TlsError
  | StatementTimeout
  | ShuttingDown
  | ParseBytesError (msg : String)
  | AuthError (msg : String)
  | AuthPassthroughError (msg : String)
deriving DecidableEq, Repr

/-- Modelled from the spec: Session or Transaction pool mode (config.rs). -/
inductive PoolMode where
  | Session
  | Transaction
deriving DecidableEq, Repr

/-- Load balancing mode (config.rs, used by pool.rs `get`). -/
inductive LoadBalancingMode where
  | Random
  | LeastOutstandingConnections
deriving DecidableEq, Repr

/-- Modelled from the spec: sharding function, a pass-through setting
(sharding.rs is not part of the analysed sources). -/
inductive ShardingFunction where
  | PgBigintHash
  | Sha1
deriving DecidableEq, Repr

/-- Modelled from the spec: the connecting user of a pool (config.rs
`User`); only the fields the pool core reads are kept. -/
structure User where
  username : String
  pool_size : Nat
  min_pool_size : Option Nat
deriving DecidableEq, Repr

/-- Pool settings (pool.rs `PoolSettings`).  The two regex fields are kept
as their pattern strings and the `plugins` pass-through is omitted: the
pool core itself never evaluates either. -/
structure PoolSettings where
  pool_mode : PoolMode
  load_balancing_mode : LoadBalancingMode
  shards : Nat
  user : User
  db : String
  default_role : Option Role
  query_parser_enabled : Bool
  query_parser_max_length : Option Nat
  query_parser_read_write_splitting : Bool
  primary_reads_enabled : Bool
  sharding_function : ShardingFunction
  automatic_sharding_key : Option String
  healthcheck_timeout : Nat
  healthcheck_delay : Nat
  ban_time : Int
  sharding_key_regex : Option String
  shard_id_regex : Option String
  regex_search_limit : Nat
  auth_query : Option String
  auth_query_user : Option String
  auth_query_password : Option String
deriving DecidableEq, Repr

/-- Observable state of one bb8 endpoint pool (`bb8::State`), as read by
`pool_state` for load balancing. -/
structure PoolState where
  connections : Nat
  idle_connections : Nat
deriving DecidableEq, Repr

/-- Modelled from the spec: the backend session handed out by an endpoint
pool (`Server` lives in server.rs, which is not part of the analysed
sources).  The pool core reads only `last_activity().elapsed()`, modelled
directly as the elapsed milliseconds at checkout time. -/
structure Server where
  id : Nat
  lastActivityElapsedMs : Nat
deriving DecidableEq, Repr

/-- Extended-protocol query payload (pool.rs `ExtendedProtocolQueryData`).
`BytesMut` contents only ever reach the core through
`String::from_utf8_lossy`, so the bind bytes are modelled as the resulting
string. -/
structure ExtendedProtocolQueryData where
  parse_query : String
  bind_message_bytes : String
deriving DecidableEq, Repr

/-- A tracked in-flight query (pool.rs `InflightQueryData`). -/
inductive InflightQueryData where
  | Simple (s : String)
  | Extended (e : ExtendedProtocolQueryData)
deriving DecidableEq, Repr

/-- The statement text tested against the admission regex: the simple
query string, or the parse message of an extended-protocol query
(the `query_string` binding at the top of `insert_into_cache`). -/
def InflightQueryData.statement : InflightQueryData → String
  | .Simple s => s
  | .Extended e => e.parse_query

/-- pool.rs `InflightQueryData::get_string`: the simple string, or
`format!("{} {}", parse_query, bind_bytes)` for extended queries. -/
def InflightQueryData.get_string : InflightQueryData → String
  | .Simple s => s
  | .Extended e => e.parse_query ++ " " ++ e.bind_message_bytes

/-- Whitespace class of the regex crate's `\s` (its ASCII members, which
are the only ones the analysed queries can contain). -/
def isWsChar (c : Char) : Bool :=
  c = ' ' || c = '\t' || c = '\n' || c = '\r' || c = '\x0B' || c = '\x0C'

/-- Match a literal keyword case-insensitively at the front of the input,
returning the rest on success (the `(?i)` literals of the admission
regex). -/
def matchKeyword : List Char → List Char → Option (List Char)
  | [], s => some s
  | _ :: _, [] => none
  | k :: ks, c :: cs => if c.toLower = k then matchKeyword ks cs else none

/-- Does the input start with `FROM` (case-insensitive) followed by a
whitespace character? -/
def fromWsAt (s : List Char) : Bool :=
  match matchKeyword ['f', 'r', 'o', 'm'] s with
  | some (c :: _) => isWsChar c
  | _ => false

/-- Does the input contain, at any position, a whitespace character
followed by `FROM` followed by a whitespace character? -/
def containsWsFrom : List Char → Bool
  | [] => false
  | c :: rest => (isWsChar c && fromWsAt rest) || containsWsFrom rest

/-- Does the input start with a match of
`SELECT\s+[\s\S]*\s+FROM\s+[\s\S]*`?  Because `[\s\S]*` absorbs anything,
the pattern matches a prefix exactly when `SELECT` is followed by one
whitespace character and, later, by whitespace-`FROM`-whitespace. -/
def selectAt (s : List Char) : Bool :=
  match matchKeyword ['s', 'e', 'l', 'e', 'c', 't'] s with
  | some (c :: rest) => isWsChar c && containsWsFrom rest
  | _ => false

/-- `Regex::is_match` of `INFLIGHT_QUERY_STATEMENT_REGEX_PATTERN`
(`(?i)SELECT\s+[\s\S]*\s+FROM\s+[\s\S]*`): the pattern matches starting
at some position of the input. -/
def inflightStatementMatch (s : String) : Bool :=
  go s.data
where
  /-- Try every suffix as a match start. -/
  go : List Char → Bool
    | [] => false
    | c :: rest => selectAt (c :: rest) || go rest

/-- Drop the remainder of a line comment: `--[^\n]*` consumes every
character up to, but not including, the next newline. -/
def dropLineComment : List Char → List Char
  | [] => []
  | c :: rest => if c = '\n' then c :: rest else dropLineComment rest

/-- Match the tail of a block comment `\/\*[^*]*\*\/` after the opening
`/*`: a run of non-`*` characters whose first `*` is immediately followed
by `/`.  Returns the input after the closing `*/`, or none when the
branch cannot match here. -/
def matchBlockComment : List Char → Option (List Char)
  | [] => none
  | c :: rest =>
    if c = '*' then
      match rest with
      | c2 :: rest2 => if c2 = '/' then some rest2 else none
      | [] => none
    else matchBlockComment rest

theorem dropLineComment_length_le (l : List Char) :
    (dropLineComment l).length ≤ l.length := by
  induction l with
  | nil => simp [dropLineComment]
  | cons c rest ih =>
    simp only [dropLineComment]
    split
    · simp
    · exact Nat.le_succ_of_le ih

theorem matchBlockComment_length_lt (l r : List Char)
    (h : matchBlockComment l = some r) : r.length < l.length := by
  induction l generalizing r with
  | nil => simp [matchBlockComment] at h
  | cons c rest ih =>
    simp only [matchBlockComment] at h
    split at h
    · cases rest with
      | nil => simp at h
      | cons c2 rest2 =>
        simp only at h
        split at h
        · cases h
          simp only [List.length_cons]
          omega
        · simp at h
    · have := ih r h
      simp only [List.length_cons]
      omega

/-- `PG_COMMENT_REGEX.replace_all(query, "")` for the pattern
`(?m)--[^\n]*|\/\*[^*]*\*\/`: scan left to right, erasing each leftmost
match and continuing after it.  The fuel argument makes the recursion
structural so that the function reduces definitionally; every step
consumes at least one character, so fuel `l.length` never runs out
(`dropLineComment_length_le` and `matchBlockComment_length_lt` above are
the corresponding bounds). -/
def stripCommentsAux : Nat → List Char → List Char
  | 0, l => l
  | _ + 1, [] => []
  | fuel + 1, c1 :: rest =>
    if c1 = '-' then
      match rest with
      | c2 :: rest2 =>
        if c2 = '-' then stripCommentsAux fuel (dropLineComment rest2)
        else c1 :: stripCommentsAux fuel (c2 :: rest2)
      | [] => [c1]
    else if c1 = '/' then
      match rest with
      | c2 :: rest2 =>
        if c2 = '*' then
          match matchBlockComment rest2 with
          | some rest3 => stripCommentsAux fuel rest3
          | none => c1 :: stripCommentsAux fuel (c2 :: rest2)
        else c1 :: stripCommentsAux fuel (c2 :: rest2)
      | [] => [c1]
    else c1 :: stripCommentsAux fuel rest

/-- Strip every comment of the input. -/
def stripComments (l : List Char) : List Char :=
  stripCommentsAux l.length l

/-- pool.rs `InflightQueryData::_sanitize_query_string`: strip line and
block comments. -/
def _sanitize_query_string (query_string : String) : String :=
  String.mk (stripComments query_string.data)

/-- pool.rs `InflightQueryData::sanitize_query_string` (the extended form
sanitizes only the parse message). -/
def InflightQueryData.sanitize_query_string : InflightQueryData → InflightQueryData
  | .Simple s => .Simple ( _sanitize_query_string s)
  | .Extended e => .Extended { e with parse_query := _sanitize_query_string e.parse_query }

/-- pool.rs `InFlightQueryHashMap`; the `FxHashMap<String, u32>` becomes
an association list with distinct keys. -/
structure InFlightQueryHashMap where
  enabled : Bool
  map : List (String × Nat)
  max_entries : Nat
  log_normalized_queries : Bool
deriving DecidableEq, Repr

/-- pool.rs `InFlightQueryHashMap::insert_into_cache`.  Admission is
decided on the raw statement, then the size guard (`len() > max_entries`)
applies, then the statement is sanitized and inserted: a fresh key gets
counter 0 and is returned to the caller, an existing key is incremented
and none is returned.  The mutated map is returned alongside. -/
def InFlightQueryHashMap.insert_into_cache (self : InFlightQueryHashMap)
    (query_data : InflightQueryData) : Option String × InFlightQueryHashMap :=
  if !(inflightStatementMatch query_data.statement) then (none, self)
  else if self.map.length > self.max_entries then (none, self)
  else
    let query := query_data.sanitize_query_string.get_string
    match self.map.find? (fun e => decide (e.1 = query)) with
    | some _ =>
      (none, { self with
               map := self.map.map (fun e => if e.1 = query then (e.1, e.2 + 1) else e) })
    | none => (some query, { self with map := self.map ++ [(query, 0)] })

/-- The globally accessible connection pool (pool.rs `ConnectionPool`),
one instance per database/user pair.  Shared-ownership handles
(`Arc<RwLock<..>>`, atomics) become plain values because mutation is
modelled by state passing; the `paused_waiter : Notify` primitive carries
no state of its own and is omitted.  `ServerParameters` (server.rs, not
among the analysed sources) is kept as an opaque association list. -/
structure ConnectionPool where
  databases : List (List PoolState)
  addresses : List (List Address)
  banlist : List (List (Address × BanReason × Int))
  original_server_parameters : List (String × String)
  settings : PoolSettings
  validated : Bool
  config_hash : Nat
  paused : Bool
  in_flight_queries_hash_map : InFlightQueryHashMap
  auth_hash : Option String
deriving DecidableEq, Repr

/-- The ban map of one shard, `guard[shard]` in the source; indexing out
of range (which panics in the source and is unreachable under the
topology invariant) yields the empty map. -/
def ConnectionPool.shardBanlist (p : ConnectionPool) (shard : Nat) :
    List (Address × BanReason × Int) :=
  p.banlist.getD shard []

/-- pool.rs `ConnectionPool::ban`: a no-op for a primary; otherwise
record `(reason, now)` for the address in its shard's ban map
(`HashMap::insert`, i.e. replace any previous entry). -/
def ConnectionPool.ban (p : ConnectionPool) (address : Address) (reason : BanReason)
    (now : Int) : ConnectionPool :=
  if address.role = Role.Primary then p
  else
    let entries := (address, reason, now) ::
      (p.shardBanlist address.shard).eraseP (fun e => decide (e.1 = address))
    { p with banlist := p.banlist.set address.shard entries }

/-- pool.rs `ConnectionPool::unban`: remove the address unconditionally. -/
def ConnectionPool.unban (p : ConnectionPool) (address : Address) : ConnectionPool :=
  let entries := (p.shardBanlist address.shard).eraseP (fun e => decide (e.1 = address))
  { p with banlist := p.banlist.set address.shard entries }

/-- pool.rs `ConnectionPool::is_banned`: membership in the shard's ban
map. -/
def ConnectionPool.is_banned (p : ConnectionPool) (address : Address) : Bool :=
  match (p.shardBanlist address.shard).find? (fun e => decide (e.1 = address)) with
  | some _ => true
  | none => false

/-- The `replicas_available` count of `try_unban`: replicas of the
shard. -/
def ConnectionPool.replicas_available (p : ConnectionPool) (shard : Nat) : Nat :=
  ((p.addresses.getD shard []).filter (fun addr => decide (addr.role = Role.Replica))).length

/-- pool.rs `ConnectionPool::try_unban`, with the clock passed in as the
seconds value of `Utc::now()`.  Returns the source's boolean together
with the updated pool. -/
def ConnectionPool.try_unban (p : ConnectionPool) (address : Address) (now : Int) :
    Bool × ConnectionPool :=
  if address.role = Role.Primary then (true, p)
  else
    let all_replicas_banned :=
      (p.shardBanlist address.shard).length = p.replicas_available address.shard
    if all_replicas_banned then
      (true, { p with banlist := p.banlist.set address.shard [] })
    else
      match (p.shardBanlist address.shard).find? (fun e => decide (e.1 = address)) with
      | some (_, ban_reason, timestamp) =>
        let exceeded_ban_time : Bool :=
          match ban_reason with
          | BanReason.AdminBan duration => decide (now - timestamp > duration)
          | _ => decide (now - timestamp > p.settings.ban_time)
        if exceeded_ban_time then
          let entries := (p.shardBanlist address.shard).eraseP (fun e => decide (e.1 = address))
          (true, { p with banlist := p.banlist.set address.shard entries })
        else (false, p)
      | none => (true, p)

/-- pool.rs `ConnectionPool::shards`. -/
def ConnectionPool.shards (p : ConnectionPool) : Nat :=
  p.databases.length

/-- pool.rs `ConnectionPool::servers`. -/
def ConnectionPool.servers (p : ConnectionPool) (shard : Nat) : Nat :=
  (p.addresses.getD shard []).length

/-- pool.rs `ConnectionPool::pool_state`: the bb8 state of one endpoint
pool. -/
def ConnectionPool.pool_state (p : ConnectionPool) (shard : Nat) (server : Nat) : PoolState :=
  (p.databases.getD shard []).getD server { connections := 0, idle_connections := 0 }

/-- pool.rs `ConnectionPool::busy_connection_count`:
`connections - idle_connections`, clamped to 0 when idle exceeds
provisioned. -/
def ConnectionPool.busy_connection_count (p : ConnectionPool) (address : Address) : Nat :=
  let state := p.pool_state address.shard address.address_index
  let idle := state.idle_connections
  let provisioned := state.connections
  if idle > provisioned then 0 else provisioned - idle

/-- Modelled from the spec: the candidate filter `address.role == role`
compares a role against the client's optional requested role
(`PartialEq<Option<Role>> for Role` lives in config.rs, not among the
analysed sources); a client that did not specify a role matches every
address. -/
def roleMatches (r : Role) (requested : Option Role) : Bool :=
  match requested with
  | none => true
  | some r2 => decide (r = r2)

/-- Stable insertion of an address into a list already sorted by
descending busy count: the new element moves past exactly the strictly
busier ones, so among equal counts the previously earlier element stays
first. -/
def insertDescBusy (p : ConnectionPool) (a : Address) : List Address → List Address
  | [] => [a]
  | b :: rest =>
    if p.busy_connection_count b > p.busy_connection_count a then
      b :: insertDescBusy p a rest
    else a :: b :: rest

/-- The `candidates.sort_by(busy(b).partial_cmp(busy(a)))` call of `get`:
a stable sort by descending busy count.  A stable sort is uniquely
determined by its comparator, so this insertion sort computes the same
list as the source's stable `sort_by`. -/
def sortDescBusy (p : ConnectionPool) : List Address → List Address
  | [] => []
  | a :: rest => insertDescBusy p a (sortDescBusy p rest)

/-- Client stats state relevant to the pool core: the `waiting`, `active`
and `idle` markers of `ClientStats`. -/
inductive ClientState where
  | waiting
  | active
  | idle
deriving DecidableEq, Repr

/-- Outcomes of the suspension points inside `get`, supplied by the
environment: the current clock (seconds), the random shuffle, each
endpoint pool's checkout outcome (`None` is a checkout error) and each
address's health-check outcome (failure and timeout collapse to
`false`). -/
structure GetEnv where
  now : Int
  shuffle : List Address → List Address
  checkout : Address → Option Server
  healthOk : Address → Bool

/-- The observable outcome of one `get` call: the returned value, the
pool (its banlist may have changed), the client's final stats state, and
the addresses on which a health check was run, in order. -/
structure GetResult where
  result : Except Error (Server × Address)
  pool : ConnectionPool
  client : ClientState
  healthchecks : List Address

/-- pool.rs `ConnectionPool::run_health_check`: issue the `";"` query
under `healthcheck_timeout`; on success return true, on failure or
timeout mark the session bad and ban the address with
`FailedHealthCheck`.  The query outcome is the oracle's bit; the
mark-bad call only affects the session object and is not part of the
pool state. -/
def ConnectionPool.run_health_check (p : ConnectionPool) (now : Int) (address : Address)
    (healthOk : Bool) : Bool × ConnectionPool :=
  if healthOk then (true, p)
  else (false, p.ban address BanReason.FailedHealthCheck now)

/-- The candidate loop of pool.rs `ConnectionPool::get`, lines 806-880,
taking the candidates in pop order (head = next `candidates.pop()`).
Per candidate: a banned address is skipped unless `try_unban` succeeds
(which forces a health check); a checkout error bans with
`FailedCheckout` and continues; then a health check runs iff forced or
the session has been idle longer than `healthcheck_delay`, a failed
check bans with `FailedHealthCheck` and continues.  Exhaustion marks the
client idle and returns `AllServersDown`. -/
def getLoop (env : GetEnv) : ConnectionPool → List Address → List Address → GetResult
  | p, [], hcs => ⟨Except.error Error.AllServersDown, p, ClientState.idle, hcs⟩
  | p, address :: rest, hcs =>
    let banStep :=
      if p.is_banned address then
        let u := p.try_unban address env.now
        (u.2, u.1, true)
      else (p, true, false)
    if banStep.2.1 then
      let p1 := banStep.1
      let force_healthcheck := banStep.2.2
      match env.checkout address with
      | none => getLoop env (p1.ban address BanReason.FailedCheckout env.now) rest hcs
      | some server =>
        let require_healthcheck := force_healthcheck ||
          decide (server.lastActivityElapsedMs > p1.settings.healthcheck_delay)
        if !require_healthcheck then
          ⟨Except.ok (server, address), p1, ClientState.active, hcs⟩
        else
          let h := p1.run_health_check env.now address (env.healthOk address)
          if h.1 then ⟨Except.ok (server, address), h.2, ClientState.active, hcs ++ [address]⟩
          else getLoop env h.2 rest (hcs ++ [address])
    else getLoop env banStep.1 rest hcs

/-- Step 1 of `get`: all addresses of the shard whose role matches the
request. -/
def ConnectionPool.candidatesFor (p : ConnectionPool) (shard : Nat) (role : Option Role) :
    List Address :=
  (p.addresses.getD shard []).filter (fun address => roleMatches address.role role)

/-- Steps 2-3 of `get` followed by the conversion to pop order: shuffle,
then under LeastOutstandingConnections stable-sort by descending busy
count; the loop pops from the back, so the head of the reversed list is
the first candidate attempted. -/
def ConnectionPool.attemptOrder (p : ConnectionPool) (shard : Nat) (role : Option Role)
    (env : GetEnv) : List Address :=
  let candidates := env.shuffle (p.candidatesFor shard role)
  let candidates :=
    if p.settings.load_balancing_mode = LoadBalancingMode.LeastOutstandingConnections then
      sortDescBusy p candidates
    else candidates
  candidates.reverse

/-- pool.rs `ConnectionPool::get`. -/
def ConnectionPool.get (p : ConnectionPool) (shard : Nat) (role : Option Role)
    (env : GetEnv) : GetResult :=
  getLoop env p (p.attemptOrder shard role env) []

/-- A banlist-affecting operation of the pool's public surface, used to
describe the reachable states of the ban manager. -/
inductive PoolOp where
  | ban (address : Address) (reason : BanReason) (now : Int)
  | unban (address : Address)
  | tryUnban (address : Address) (now : Int)
  | get (shard : Nat) (role : Option Role) (env : GetEnv)

/-- Apply one operation to the pool state. -/
def ConnectionPool.applyOp (p : ConnectionPool) : PoolOp → ConnectionPool
  | .ban address reason now => p.ban address reason now
  | .unban address => p.unban address
  | .tryUnban address now => (p.try_unban address now).2
  | .get shard role env => (p.get shard role env).pool

/-- Run a sequence of operations from a starting state. -/
def ConnectionPool.runOps (p : ConnectionPool) : List PoolOp → ConnectionPool
  | [] => p
  | op :: ops => (p.applyOp op).runOps ops

/-- A pool as constructed by `from_config`: every shard starts with an
empty ban map (`banlist.push(HashMap::new())`). -/
def ConnectionPool.emptyBanlists (p : ConnectionPool) : Prop :=
  ∀ l ∈ p.banlist, l = []

/-- No shard's ban map contains a primary address (spec invariant 3). -/
def ConnectionPool.noPrimaryBanned (p : ConnectionPool) : Prop :=
  ∀ shardBans ∈ p.banlist, ∀ e ∈ shardBans, e.1.role ≠ Role.Primary

/-- The slice of one `config.pools` entry that `from_config` reads when
deciding between reusing and rebuilding pools: the pool name, the
config's `hash_value()` fingerprint, and its users. -/
structure PoolConfigEntry where
  pool_name : String
  hash_value : Nat
  users : List User

/-- The registry mapping `{PoolIdentifier → ConnectionPool}`
(`PoolMap`). -/
def PoolMap := List (PoolIdentifier × ConnectionPool)

/-- pool.rs `get_pool`: look an identifier up in a registry snapshot. -/
def get_pool (pools : PoolMap) (db : String) (user : String) : Option ConnectionPool :=
  (pools.find? (fun e => decide (e.1 = PoolIdentifier.new db user))).map (fun e => e.2)

/-- `HashMap::insert` on the registry being built. -/
def poolsInsert (pools : PoolMap) (identifier : PoolIdentifier) (pool : ConnectionPool) :
    PoolMap :=
  (identifier, pool) :: pools.eraseP (fun e => decide (e.1 = identifier))

/-- pool.rs `ConnectionPool::from_config`, specialised to the decision
this file verifies: for every (pool, user) of the new configuration,
reuse the old registry's pool when its `config_hash` equals the new
config's `hash_value`, otherwise insert a freshly built pool
(`build_pool` abstracts the construction, whose outcome depends on
external backends); the resulting map is what `POOLS.store` publishes as
the new snapshot. -/
def from_config (old : PoolMap) (pools_config : List PoolConfigEntry)
    (build_pool : PoolConfigEntry → User → ConnectionPool) : PoolMap :=
  pools_config.foldl (fun new_pools pool_config =>
    pool_config.users.foldl (fun new_pools user =>
      let identifier := PoolIdentifier.new pool_config.pool_name user.username
      match get_pool old pool_config.pool_name user.username with
      | some pool =>
        if pool.config_hash = pool_config.hash_value then
          poolsInsert new_pools identifier pool
        else poolsInsert new_pools identifier (build_pool pool_config user)
      | none => poolsInsert new_pools identifier (build_pool pool_config user))
      new_pools)
    []

/-- Sample topology: the primary of shard 0. -/
def addrPrimary : Address :=
  ⟨0, "p1", 5432, Role.Primary, 0, 0, 0, "db", "user1", "pool1"⟩

/-- Sample topology: first replica of shard 0. -/
def addrR1 : Address :=
  ⟨1, "r1", 5432, Role.Replica, 0, 1, 0, "db", "user1", "pool1"⟩

/-- Sample topology: second replica of shard 0. -/
def addrR2 : Address :=
  ⟨2, "r2", 5432, Role.Replica, 0, 2, 1, "db", "user1", "pool1"⟩

/-- Sample pool settings (random load balancing, `ban_time` 60s,
`healthcheck_delay` 30000ms). -/
def sampleSettings : PoolSettings :=
  { pool_mode := PoolMode.Transaction
    load_balancing_mode := LoadBalancingMode.Random
    shards := 1
    user := ⟨"user1", 10, none⟩
    db := "pool1"
    default_role := none
    query_parser_enabled := false
    query_parser_max_length := none
    query_parser_read_write_splitting := false
    primary_reads_enabled := true
    sharding_function := ShardingFunction.PgBigintHash
    automatic_sharding_key := none
    healthcheck_timeout := 1000
    healthcheck_delay := 30000
    ban_time := 60
    sharding_key_regex := none
    shard_id_regex := none
    regex_search_limit := 1000
    auth_query := none
    auth_query_user := none
    auth_query_password := none }

/-- A sample single-shard pool (one primary, two replicas) with the given
ban map for shard 0. -/
def samplePool (bans : List (Address × BanReason × Int)) : ConnectionPool :=
  { databases := [[⟨1, 1⟩, ⟨2, 1⟩, ⟨1, 0⟩]]
    addresses := [[addrPrimary, addrR1, addrR2]]
    banlist := [bans]
    original_server_parameters := []
    settings := sampleSettings
    validated := true
    config_hash := 42
    paused := false
    in_flight_queries_hash_map := ⟨false, [], 100, false⟩
    auth_hash := none }

/-- Replace one shard's ban map (the shape every banlist write of the
source has). -/
def ConnectionPool.withShardBans (p : ConnectionPool) (shard : Nat)
    (bans : List (Address × BanReason × Int)) : ConnectionPool :=
  { p with banlist := p.banlist.set shard bans }

/-- Replace the in-flight map's contents (the shape of every write of
`insert_into_cache`). -/
def InFlightQueryHashMap.withMap (self : InFlightQueryHashMap)
    (m : List (String × Nat)) : InFlightQueryHashMap :=
  { self with map := m }

/-- The sample pool with LeastOutstandingConnections balancing and
distinct busy counts: the primary is idle, r1 has 2 busy connections and
r2 has none. -/
def samplePoolLOC : ConnectionPool :=
  { samplePool [] with
    databases := [[⟨1, 1⟩, ⟨3, 1⟩, ⟨2, 2⟩]]
    settings := { sampleSettings with
      load_balancing_mode := LoadBalancingMode.LeastOutstandingConnections } }

/-- A sample environment in which every checkout fails. -/
def sampleEnv : GetEnv :=
  { now := 0, shuffle := id, checkout := fun _ => none, healthOk := fun _ => true }

/-- A sample session that has been active 100ms ago (well within the
30000ms `healthcheck_delay`). -/
def sampleServerFresh : Server := ⟨7, 100⟩

/-- A sample environment in which every checkout yields the fresh sample
session and health checks pass. -/
def sampleEnvCheckout : GetEnv :=
  { now := 0, shuffle := id, checkout := fun _ => some sampleServerFresh,
    healthOk := fun _ => true }

/-- The (pool entry, user) pairs `from_config` iterates over, in
iteration order. -/
def pairsOf (cfg : List PoolConfigEntry) : List (PoolConfigEntry × User) :=
  cfg.flatMap (fun e => e.users.map (fun u => (e, u)))

/-- The pool identifier produced for one (pool entry, user) pair. -/
def idOfPair (pu : PoolConfigEntry × User) : PoolIdentifier :=
  PoolIdentifier.new pu.1.pool_name pu.2.username

/-- The pool that `from_config` inserts for one (pool entry, user) pair:
the old pool when its config hash is unchanged, a freshly built pool
otherwise. -/
def valueFor (old : PoolMap) (build_pool : PoolConfigEntry → User → ConnectionPool)
    (pu : PoolConfigEntry × User) : ConnectionPool :=
  match get_pool old pu.1.pool_name pu.2.username with
  | some pool => if pool.config_hash = pu.1.hash_value then pool else build_pool pu.1 pu.2
  | none => build_pool pu.1 pu.2

/-- When the shard's ban map has pairwise distinct keys, every key is a
replica of the shard, and some replica of the shard is unbanned, then the
ban count is strictly below the replica count, so `try_unban` does not
take the unban-all branch. -/
theorem bans_lt_replicas (p : ConnectionPool) (shard : Nat)
    (hnodup : ((p.shardBanlist shard).map (fun e => e.1)).Nodup)
    (hsub : ∀ e ∈ p.shardBanlist shard,
      e.1 ∈ p.addresses.getD shard [] ∧ e.1.role = Role.Replica)
    (hfree : ∃ a2 ∈ p.addresses.getD shard [], a2.role = Role.Replica ∧
      (p.shardBanlist shard).find? (fun e => decide (e.1 = a2)) = none) :
    (p.shardBanlist shard).length < p.replicas_available shard := by
  obtain ⟨a2, ha2mem, ha2role, ha2free⟩ := hfree
  have hsubkeys : (a2 :: (p.shardBanlist shard).map (fun e => e.1)) ⊆
      (p.addresses.getD shard []).filter (fun addr => decide (addr.role = Role.Replica)) := by
    intro x hx
    rcases List.mem_cons.mp hx with rfl | hx
    · exact List.mem_filter.mpr ⟨ha2mem, by simp [ha2role]⟩
    · obtain ⟨e, he, rfl⟩ := List.mem_map.mp hx
      exact List.mem_filter.mpr ⟨(hsub e he).1, by simp [(hsub e he).2]⟩
  have hnodup2 : (a2 :: (p.shardBanlist shard).map (fun e => e.1)).Nodup := by
    refine List.nodup_cons.mpr ⟨?_, hnodup⟩
    intro hmem
    obtain ⟨e, he, heq⟩ := List.mem_map.mp hmem
    have hnp := List.find?_eq_none.mp ha2free e he
    simp [heq] at hnp
  have hle := (List.subperm_of_subset hnodup2 hsubkeys).length_le
  simp only [List.length_cons, List.length_map] at hle
  simpa [ConnectionPool.replicas_available] using hle

/-- C1: for a shard whose ban map holds exactly as many entries as the
shard has replicas, `try_unban` on a banned replica address clears the
shard's entire banlist and returns true. -/
theorem c1_all_banned_unban_all (p : ConnectionPool) (address : Address) (now : Int)
    (hrole : address.role = Role.Replica)
    (hbanned : p.is_banned address = true)
    (hall : (p.shardBanlist address.shard).length = p.replicas_available address.shard) :
    p.try_unban address now = (true, p.withShardBans address.shard []) := by
  simp [ConnectionPool.try_unban, ConnectionPool.withShardBans, hrole, hall]

/-- Witness for C1: both replicas of the sample pool are banned; trying
to unban the first clears shard 0's banlist and returns true. -/
theorem c1_all_banned_unban_all_witness :
    (samplePool [(addrR1, BanReason.FailedHealthCheck, 100),
                 (addrR2, BanReason.FailedCheckout, 120)]).try_unban addrR1 130 =
      (true, (samplePool [(addrR1, BanReason.FailedHealthCheck, 100),
                          (addrR2, BanReason.FailedCheckout, 120)]).withShardBans
          addrR1.shard []) :=
  c1_all_banned_unban_all _ addrR1 130 (by decide) (by decide) (by decide)

/-- C2: a banned replica in a shard that still has an unbanned replica is
unbanned by `try_unban` exactly when `now - timestamp` exceeds the
threshold: the admin-ban duration for `AdminBan(d)`, the pool's
`ban_time` for every other reason; below the threshold `try_unban`
returns false and changes nothing, above it the entry is removed and
true is returned. -/
theorem c2_ban_ttl (p : ConnectionPool) (address : Address) (now : Int)
    (reason : BanReason) (t : Int)
    (hrole : address.role = Role.Replica)
    (hfind : (p.shardBanlist address.shard).find? (fun e => decide (e.1 = address)) =
      some (address, reason, t))
    (hnodup : ((p.shardBanlist address.shard).map (fun e => e.1)).Nodup)
    (hsub : ∀ e ∈ p.shardBanlist address.shard,
      e.1 ∈ p.addresses.getD address.shard [] ∧ e.1.role = Role.Replica)
    (hfree : ∃ a2 ∈ p.addresses.getD address.shard [], a2.role = Role.Replica ∧
      (p.shardBanlist address.shard).find? (fun e => decide (e.1 = a2)) = none) :
    (now - t ≤ (match reason with
                | BanReason.AdminBan d => d
                | _ => p.settings.ban_time) →
      p.try_unban address now = (false, p)) ∧
    (now - t > (match reason with
                | BanReason.AdminBan d => d
                | _ => p.settings.ban_time) →
      p.try_unban address now =
        (true, p.withShardBans address.shard
          ((p.shardBanlist address.shard).eraseP (fun e => decide (e.1 = address))))) := by
  have hne : ¬ ((p.shardBanlist address.shard).length = p.replicas_available address.shard) :=
    Nat.ne_of_lt (bans_lt_replicas p address.shard hnodup hsub hfree)
  constructor <;> intro hcmp <;> cases reason <;>
    simp_all [ConnectionPool.try_unban, ConnectionPool.withShardBans, hrole, hne, hfind] <;>
    omega

/-- Witness for C2: replica r1 banned at t=100 with the default reason in
a pool with `ban_time = 60` and r2 unbanned: at now=160 (60s elapsed)
`try_unban` returns false, at now=161 it removes the entry and returns
true. -/
theorem c2_ban_ttl_witness :
    (samplePool [(addrR1, BanReason.FailedHealthCheck, 100)]).try_unban addrR1 160 =
      (false, samplePool [(addrR1, BanReason.FailedHealthCheck, 100)]) :=
  (c2_ban_ttl _ addrR1 160 BanReason.FailedHealthCheck 100 (by decide) (by decide)
      (by decide) (by decide) ⟨addrR2, by decide, by decide, by decide⟩).1 (by decide)

/-- C10: `try_unban` on a replica that is not in its shard's ban map
(while the shard still has an unbanned replica, here the address itself)
returns true without modifying the banlist. -/
theorem c10_unbanned_address_try_unban (p : ConnectionPool) (address : Address) (now : Int)
    (hrole : address.role = Role.Replica)
    (hmem : address ∈ p.addresses.getD address.shard [])
    (hnotfound : (p.shardBanlist address.shard).find? (fun e => decide (e.1 = address)) = none)
    (hnodup : ((p.shardBanlist address.shard).map (fun e => e.1)).Nodup)
    (hsub : ∀ e ∈ p.shardBanlist address.shard,
      e.1 ∈ p.addresses.getD address.shard [] ∧ e.1.role = Role.Replica) :
    p.try_unban address now = (true, p) := by
  have hne : ¬ ((p.shardBanlist address.shard).length = p.replicas_available address.shard) :=
    Nat.ne_of_lt (bans_lt_replicas p address.shard hnodup hsub
      ⟨address, hmem, hrole, hnotfound⟩)
  simp [ConnectionPool.try_unban, hrole, hne, hnotfound]

/-- A `getD` value is a member of the list or the default. -/
theorem getD_mem_or_eq {α : Type} (l : List α) (n : Nat) (d : α) :
    l.getD n d ∈ l ∨ l.getD n d = d := by
  induction l generalizing n with
  | nil => right; simp [List.getD]
  | cons a t ih =>
    cases n with
    | zero => left; simp
    | succ m =>
      rcases ih m with h | h
      · left
        simp only [List.getD_cons_succ]
        exact List.mem_cons_of_mem a h
      · right
        simpa using h

/-- Every entry of a shard's ban map lives in some member of the
banlist. -/
theorem shardBanlist_entry_mem (p : ConnectionPool) (s : Nat)
    (hinv : p.noPrimaryBanned) :
    ∀ e ∈ p.shardBanlist s, e.1.role ≠ Role.Primary := by
  intro e he
  rcases getD_mem_or_eq p.banlist s [] with hm | hnil
  · exact hinv _ hm e he
  · rw [ConnectionPool.shardBanlist, hnil] at he
    simp at he

/-- `ban` preserves the no-primary-banned invariant: it refuses primaries
and inserts the banned address itself as the key. -/
theorem ban_preserves_noPrimaryBanned (p : ConnectionPool) (a : Address) (r : BanReason)
    (t : Int) (h : p.noPrimaryBanned) : (p.ban a r t).noPrimaryBanned := by
  rw [ConnectionPool.ban]
  split
  · exact h
  · rename_i hrole
    intro shardBans hmem e he
    simp only at hmem
    rcases List.mem_or_eq_of_mem_set hmem with hold | hnew
    · exact h shardBans hold e he
    · subst hnew
      rcases List.mem_cons.mp he with rfl | he2
      · simpa using hrole
      · exact shardBanlist_entry_mem p a.shard h e ((List.eraseP_sublist _).subset he2)

/-- `unban` preserves the no-primary-banned invariant. -/
theorem unban_preserves_noPrimaryBanned (p : ConnectionPool) (a : Address)
    (h : p.noPrimaryBanned) : (p.unban a).noPrimaryBanned := by
  rw [ConnectionPool.unban]
  intro shardBans hmem e he
  simp only at hmem
  rcases List.mem_or_eq_of_mem_set hmem with hold | hnew
  · exact h shardBans hold e he
  · subst hnew
    exact shardBanlist_entry_mem p a.shard h e ((List.eraseP_sublist _).subset he)

/-- The pool returned by `try_unban` is the input pool, the input pool
with the shard's ban map cleared, or the input pool with the address's
entry removed. -/
theorem try_unban_pool_cases (p : ConnectionPool) (a : Address) (now : Int) :
    (p.try_unban a now).2 = p ∨
    (p.try_unban a now).2 = p.withShardBans a.shard [] ∨
    (p.try_unban a now).2 = p.withShardBans a.shard
      ((p.shardBanlist a.shard).eraseP (fun e => decide (e.1 = a))) := by
  by_cases hrole : a.role = Role.Primary
  · exact Or.inl (by simp [ConnectionPool.try_unban, hrole])
  · by_cases hall : (p.shardBanlist a.shard).length = p.replicas_available a.shard
    · refine Or.inr (Or.inl ?_)
      simp [ConnectionPool.try_unban, ConnectionPool.withShardBans, hrole, hall]
    · cases hfind : (p.shardBanlist a.shard).find? (fun e => decide (e.1 = a)) with
      | none => exact Or.inl (by simp [ConnectionPool.try_unban, hrole, hall, hfind])
      | some entry =>
        obtain ⟨a1, r1, t1⟩ := entry
        simp only [ConnectionPool.try_unban, ConnectionPool.withShardBans]
        rw [if_neg hrole, if_neg hall, hfind]
        dsimp only
        split
        · exact Or.inr (Or.inr rfl)
        · exact Or.inl rfl

/-- Replacing a shard's ban map with primary-free entries preserves the
no-primary-banned invariant. -/
theorem withShardBans_preserves_noPrimaryBanned (p : ConnectionPool) (shard : Nat)
    (bans : List (Address × BanReason × Int))
    (hbans : ∀ e ∈ bans, e.1.role ≠ Role.Primary) (h : p.noPrimaryBanned) :
    (p.withShardBans shard bans).noPrimaryBanned := by
  intro shardBans hmem e he
  simp only [ConnectionPool.withShardBans] at hmem
  rcases List.mem_or_eq_of_mem_set hmem with hold | hnew
  · exact h shardBans hold e he
  · subst hnew
    exact hbans e he

/-- `try_unban` preserves the no-primary-banned invariant: it only ever
clears or removes entries. -/
theorem try_unban_preserves_noPrimaryBanned (p : ConnectionPool) (a : Address) (now : Int)
    (h : p.noPrimaryBanned) : ((p.try_unban a now).2).noPrimaryBanned := by
  rcases try_unban_pool_cases p a now with hEq | hEq | hEq <;> rw [hEq]
  · exact h
  · exact withShardBans_preserves_noPrimaryBanned p _ _ (by simp) h
  · refine withShardBans_preserves_noPrimaryBanned p _ _ ?_ h
    intro e he
    exact shardBanlist_entry_mem p a.shard h e ((List.eraseP_sublist _).subset he)

/-- `run_health_check` preserves the no-primary-banned invariant. -/
theorem run_health_check_preserves_noPrimaryBanned (p : ConnectionPool) (now : Int)
    (a : Address) (ok : Bool) (h : p.noPrimaryBanned) :
    ((p.run_health_check now a ok).2).noPrimaryBanned := by
  rw [ConnectionPool.run_health_check]
  split
  · exact h
  · exact ban_preserves_noPrimaryBanned p a BanReason.FailedHealthCheck now h

/-- Exhausting the candidates marks the client idle and returns
`AllServersDown`. -/
theorem getLoop_nil (env : GetEnv) (p : ConnectionPool) (hcs : List Address) :
    getLoop env p [] hcs =
      ⟨Except.error Error.AllServersDown, p, ClientState.idle, hcs⟩ := rfl

/-- A banned candidate whose `try_unban` fails is skipped. -/
theorem getLoop_cons_skip (env : GetEnv) (p : ConnectionPool) (address : Address)
    (rest : List Address) (hcs : List Address)
    (hb : p.is_banned address = true) (hu : (p.try_unban address env.now).1 = false) :
    getLoop env p (address :: rest) hcs =
      getLoop env (p.try_unban address env.now).2 rest hcs := by
  simp [getLoop, hb, hu]

/-- A checkout error on an unbanned candidate bans it with
`FailedCheckout` and continues with the remaining candidates. -/
theorem getLoop_cons_checkout_error (env : GetEnv) (p : ConnectionPool) (address : Address)
    (rest : List Address) (hcs : List Address)
    (hb : p.is_banned address = false) (hco : env.checkout address = none) :
    getLoop env p (address :: rest) hcs =
      getLoop env (p.ban address BanReason.FailedCheckout env.now) rest hcs := by
  simp [getLoop, hb, hco]

/-- A checkout error on a just-unbanned candidate also bans it with
`FailedCheckout` and continues. -/
theorem getLoop_cons_checkout_error_unbanned (env : GetEnv) (p : ConnectionPool)
    (address : Address) (rest : List Address) (hcs : List Address)
    (hb : p.is_banned address = true) (hu : (p.try_unban address env.now).1 = true)
    (hco : env.checkout address = none) :
    getLoop env p (address :: rest) hcs =
      getLoop env ((p.try_unban address env.now).2.ban address BanReason.FailedCheckout env.now)
        rest hcs := by
  simp [getLoop, hb, hu, hco]

/-- A fresh session on an unbanned candidate (its `last_activity` within
`healthcheck_delay`) is returned immediately, with no health check. -/
theorem getLoop_cons_fresh (env : GetEnv) (p : ConnectionPool) (address : Address)
    (server : Server) (rest : List Address) (hcs : List Address)
    (hb : p.is_banned address = false) (hco : env.checkout address = some server)
    (hdelay : ¬ server.lastActivityElapsedMs > p.settings.healthcheck_delay) :
    getLoop env p (address :: rest) hcs =
      ⟨Except.ok (server, address), p, ClientState.active, hcs⟩ := by
  simp [getLoop, hb, hco, hdelay]

/-- A stale session on an unbanned candidate is health-checked; on
success it is returned. -/
theorem getLoop_cons_stale_ok (env : GetEnv) (p : ConnectionPool) (address : Address)
    (server : Server) (rest : List Address) (hcs : List Address)
    (hb : p.is_banned address = false) (hco : env.checkout address = some server)
    (hdelay : server.lastActivityElapsedMs > p.settings.healthcheck_delay)
    (hok : env.healthOk address = true) :
    getLoop env p (address :: rest) hcs =
      ⟨Except.ok (server, address), p, ClientState.active, hcs ++ [address]⟩ := by
  simp [getLoop, ConnectionPool.run_health_check, hb, hco, hdelay, hok]

/-- A stale session on an unbanned candidate whose health check fails:
the address is banned with `FailedHealthCheck` and the loop continues. -/
theorem getLoop_cons_stale_fail (env : GetEnv) (p : ConnectionPool) (address : Address)
    (server : Server) (rest : List Address) (hcs : List Address)
    (hb : p.is_banned address = false) (hco : env.checkout address = some server)
    (hdelay : server.lastActivityElapsedMs > p.settings.healthcheck_delay)
    (hok : env.healthOk address = false) :
    getLoop env p (address :: rest) hcs =
      getLoop env (p.ban address BanReason.FailedHealthCheck env.now) rest
        (hcs ++ [address]) := by
  simp [getLoop, ConnectionPool.run_health_check, hb, hco, hdelay, hok]

/-- A banned candidate whose `try_unban` succeeds forces a health check
even on a fresh session; on success it is returned. -/
theorem getLoop_cons_forced_ok (env : GetEnv) (p : ConnectionPool) (address : Address)
    (server : Server) (rest : List Address) (hcs : List Address)
    (hb : p.is_banned address = true) (hu : (p.try_unban address env.now).1 = true)
    (hco : env.checkout address = some server) (hok : env.healthOk address = true) :
    getLoop env p (address :: rest) hcs =
      ⟨Except.ok (server, address), (p.try_unban address env.now).2, ClientState.active,
        hcs ++ [address]⟩ := by
  simp [getLoop, ConnectionPool.run_health_check, hb, hu, hco, hok]

/-- A banned candidate whose `try_unban` succeeds but whose forced health
check fails is re-banned with `FailedHealthCheck` and the loop
continues. -/
theorem getLoop_cons_forced_fail (env : GetEnv) (p : ConnectionPool) (address : Address)
    (server : Server) (rest : List Address) (hcs : List Address)
    (hb : p.is_banned address = true) (hu : (p.try_unban address env.now).1 = true)
    (hco : env.checkout address = some server) (hok : env.healthOk address = false) :
    getLoop env p (address :: rest) hcs =
      getLoop env
        ((p.try_unban address env.now).2.ban address BanReason.FailedHealthCheck env.now)
        rest (hcs ++ [address]) := by
  simp [getLoop, ConnectionPool.run_health_check, hb, hu, hco, hok]

/-- The candidate loop of `get` preserves the no-primary-banned
invariant: its only banlist writes go through `try_unban`, `ban` and
`run_health_check`. -/
theorem getLoop_preserves_noPrimaryBanned (env : GetEnv) :
    ∀ (candidates : List Address) (p : ConnectionPool) (hcs : List Address),
      p.noPrimaryBanned → ((getLoop env p candidates hcs).pool).noPrimaryBanned := by
  intro candidates
  induction candidates with
  | nil =>
    intro p hcs h
    simpa [getLoop_nil] using h
  | cons address rest ih =>
    intro p hcs h
    by_cases hb : p.is_banned address
    · by_cases hu : (p.try_unban address env.now).1
      · have h2 := try_unban_preserves_noPrimaryBanned p address env.now h
        cases hco : env.checkout address with
        | none =>
          rw [getLoop_cons_checkout_error_unbanned env p address rest hcs hb hu hco]
          exact ih _ _ (ban_preserves_noPrimaryBanned _ _ _ _ h2)
        | some server =>
          cases hok : env.healthOk address with
          | true =>
            rw [getLoop_cons_forced_ok env p address server rest hcs hb hu hco hok]
            exact h2
          | false =>
            rw [getLoop_cons_forced_fail env p address server rest hcs hb hu hco hok]
            exact ih _ _ (ban_preserves_noPrimaryBanned _ _ _ _ h2)
      · rw [getLoop_cons_skip env p address rest hcs hb (Bool.not_eq_true _ ▸ hu)]
        exact ih _ _ (try_unban_preserves_noPrimaryBanned p address env.now h)
    · have hbf : p.is_banned address = false := by simpa using hb
      cases hco : env.checkout address with
      | none =>
        rw [getLoop_cons_checkout_error env p address rest hcs hbf hco]
        exact ih _ _ (ban_preserves_noPrimaryBanned _ _ _ _ h)
      | some server =>
        by_cases hdelay : server.lastActivityElapsedMs > p.settings.healthcheck_delay
        · cases hok : env.healthOk address with
          | true =>
            rw [getLoop_cons_stale_ok env p address server rest hcs hbf hco hdelay hok]
            exact h
          | false =>
            rw [getLoop_cons_stale_fail env p address server rest hcs hbf hco hdelay hok]
            exact ih _ _ (ban_preserves_noPrimaryBanned _ _ _ _ h)
        · rw [getLoop_cons_fresh env p address server rest hcs hbf hco hdelay]
          exact h

/-- `get` preserves the no-primary-banned invariant. -/
theorem get_preserves_noPrimaryBanned (p : ConnectionPool) (shard : Nat) (role : Option Role)
    (env : GetEnv) (h : p.noPrimaryBanned) : ((p.get shard role env).pool).noPrimaryBanned :=
  getLoop_preserves_noPrimaryBanned env _ p [] h

/-- Every sequence of pool operations preserves the no-primary-banned
invariant. -/
theorem runOps_preserves_noPrimaryBanned (ops : List PoolOp) :
    ∀ p : ConnectionPool, p.noPrimaryBanned → (p.runOps ops).noPrimaryBanned := by
  induction ops with
  | nil => intro p h; exact h
  | cons op rest ih =>
    intro p h
    refine ih _ ?_
    cases op with
    | ban a r t => exact ban_preserves_noPrimaryBanned p a r t h
    | unban a => exact unban_preserves_noPrimaryBanned p a h
    | tryUnban a t => exact try_unban_preserves_noPrimaryBanned p a t h
    | get shard role env => exact get_preserves_noPrimaryBanned p shard role env h

/-- In a state satisfying the invariant, `is_banned` is false on every
primary. -/
theorem is_banned_primary_false (p : ConnectionPool) (a : Address)
    (hrole : a.role = Role.Primary) (h : p.noPrimaryBanned) : p.is_banned a = false := by
  rw [ConnectionPool.is_banned]
  cases hfind : (p.shardBanlist a.shard).find? (fun e => decide (e.1 = a)) with
  | none => rfl
  | some e =>
    have hmem := List.mem_of_find?_eq_some hfind
    have hkey := List.find?_some hfind
    simp only [decide_eq_true_eq] at hkey
    have := shardBanlist_entry_mem p a.shard h e hmem
    rw [hkey, hrole] at this
    exact absurd rfl this

/-- C3: from any freshly constructed pool (all shard ban maps empty),
after any sequence of ban-manager and checkout operations, `ban` on a
primary address is a no-op, `is_banned` on a primary is false, and the
banlist contains no primary address. -/
theorem c3_primaries_unbannable (p0 : ConnectionPool) (ops : List PoolOp)
    (h0 : p0.emptyBanlists) (a : Address) (hrole : a.role = Role.Primary)
    (reason : BanReason) (now : Int) :
    ((p0.runOps ops).ban a reason now = p0.runOps ops) ∧
    ((p0.runOps ops).is_banned a = false) ∧
    (p0.runOps ops).noPrimaryBanned := by
  have hinv0 : p0.noPrimaryBanned := by
    intro shardBans hmem e he
    rw [h0 shardBans hmem] at he
    simp at he
  have hinv := runOps_preserves_noPrimaryBanned ops p0 hinv0
  refine ⟨?_, is_banned_primary_false _ a hrole hinv, hinv⟩
  rw [ConnectionPool.ban, if_pos hrole]

/-- Witness for C3: starting from the sample pool with an empty banlist
and running a ban of r1, an unban and a failed try-unban, the primary
remains unbannable and unbanned. -/
theorem c3_primaries_unbannable_witness :
    ((samplePool []).runOps [PoolOp.ban addrR1 BanReason.MessageSendFailed 5,
        PoolOp.tryUnban addrR1 10]).ban addrPrimary BanReason.FailedCheckout 20 =
      (samplePool []).runOps [PoolOp.ban addrR1 BanReason.MessageSendFailed 5,
        PoolOp.tryUnban addrR1 10] ∧
    ((samplePool []).runOps [PoolOp.ban addrR1 BanReason.MessageSendFailed 5,
        PoolOp.tryUnban addrR1 10]).is_banned addrPrimary = false ∧
    ((samplePool []).runOps [PoolOp.ban addrR1 BanReason.MessageSendFailed 5,
        PoolOp.tryUnban addrR1 10]).noPrimaryBanned :=
  c3_primaries_unbannable (samplePool []) _
    (by unfold ConnectionPool.emptyBanlists; decide) addrPrimary (by decide)
    BanReason.FailedCheckout 20

/-- Witness for C10: r2 is banned but r1 is not; `try_unban` on r1
returns true and leaves the pool unchanged. -/
theorem c10_unbanned_address_try_unban_witness :
    (samplePool [(addrR2, BanReason.StatementTimeout, 100)]).try_unban addrR1 110 =
      (true, samplePool [(addrR2, BanReason.StatementTimeout, 100)]) :=
  c10_unbanned_address_try_unban _ addrR1 110 (by decide) (by decide) (by decide)
    (by decide) (by decide)

/-- `insertDescBusy` permutes consing. -/
theorem insertDescBusy_perm (p : ConnectionPool) (a : Address) (l : List Address) :
    (insertDescBusy p a l).Perm (a :: l) := by
  induction l with
  | nil => exact List.Perm.refl _
  | cons b rest ih =>
    rw [insertDescBusy]
    split
    · exact (ih.cons b).trans (List.Perm.swap a b rest)
    · exact List.Perm.refl _

/-- `sortDescBusy` permutes its input. -/
theorem sortDescBusy_perm (p : ConnectionPool) (l : List Address) :
    (sortDescBusy p l).Perm l := by
  induction l with
  | nil => exact List.Perm.refl _
  | cons a rest ih => exact (insertDescBusy_perm p a _).trans (ih.cons a)

/-- `insertDescBusy` preserves the descending-by-busy-count order. -/
theorem insertDescBusy_pairwise (p : ConnectionPool) (a : Address) (l : List Address)
    (h : l.Pairwise (fun x y => p.busy_connection_count y ≤ p.busy_connection_count x)) :
    (insertDescBusy p a l).Pairwise
      (fun x y => p.busy_connection_count y ≤ p.busy_connection_count x) := by
  induction l with
  | nil => simp [insertDescBusy]
  | cons b rest ih =>
    rcases List.pairwise_cons.mp h with ⟨hb, hrest⟩
    rw [insertDescBusy]
    split
    · rename_i hgt
      refine List.pairwise_cons.mpr ⟨?_, ih hrest⟩
      intro y hy
      rcases List.mem_cons.mp ((insertDescBusy_perm p a rest).mem_iff.mp hy) with rfl | hyr
      · exact Nat.le_of_lt hgt
      · exact hb y hyr
    · rename_i hle
      refine List.pairwise_cons.mpr ⟨?_, h⟩
      intro y hy
      rcases List.mem_cons.mp hy with rfl | hyr
      · exact Nat.le_of_not_lt hle
      · exact le_trans (hb y hyr) (Nat.le_of_not_lt hle)

/-- `sortDescBusy` sorts by descending busy count. -/
theorem sortDescBusy_pairwise (p : ConnectionPool) (l : List Address) :
    (sortDescBusy p l).Pairwise
      (fun x y => p.busy_connection_count y ≤ p.busy_connection_count x) := by
  induction l with
  | nil => simp [sortDescBusy]
  | cons a rest ih => exact insertDescBusy_pairwise p a _ ih

/-- C5: under LeastOutstandingConnections, `get` shuffles and then
stable-sorts by descending busy count, so the first candidate attempted
(the head of the pop-order list) has the minimal busy count among the
candidates; and the busy count is `connections - idle_connections`
clamped to 0 when idle exceeds connections. -/
theorem c5_least_outstanding_minimal (p : ConnectionPool) (shard : Nat) (role : Option Role)
    (env : GetEnv)
    (hmode : p.settings.load_balancing_mode = LoadBalancingMode.LeastOutstandingConnections)
    (hperm : (env.shuffle (p.candidatesFor shard role)).Perm (p.candidatesFor shard role))
    (a : Address) (rest : List Address)
    (horder : p.attemptOrder shard role env = a :: rest) :
    (∀ b ∈ p.candidatesFor shard role,
      p.busy_connection_count a ≤ p.busy_connection_count b) ∧
    (∀ c : Address, p.busy_connection_count c =
      if (p.pool_state c.shard c.address_index).idle_connections >
          (p.pool_state c.shard c.address_index).connections then 0
      else (p.pool_state c.shard c.address_index).connections -
        (p.pool_state c.shard c.address_index).idle_connections) := by
  have hAO : p.attemptOrder shard role env =
      (sortDescBusy p (env.shuffle (p.candidatesFor shard role))).reverse := by
    simp [ConnectionPool.attemptOrder, hmode]
  rw [hAO] at horder
  refine ⟨?_, fun c => rfl⟩
  intro b hb
  have hbsort : b ∈ sortDescBusy p (env.shuffle (p.candidatesFor shard role)) :=
    ((sortDescBusy_perm p _).trans hperm).mem_iff.mpr hb
  have hbrev : b ∈ (sortDescBusy p (env.shuffle (p.candidatesFor shard role))).reverse :=
    List.mem_reverse.mpr hbsort
  have hrevpw : (sortDescBusy p (env.shuffle (p.candidatesFor shard role))).reverse.Pairwise
      (fun x y => p.busy_connection_count x ≤ p.busy_connection_count y) := by
    rw [List.pairwise_reverse]
    exact sortDescBusy_pairwise p _
  rw [horder] at hbrev hrevpw
  rcases List.mem_cons.mp hbrev with rfl | hbrest
  · exact Nat.le_refl _
  · exact (List.pairwise_cons.mp hrevpw).1 b hbrest

/-- Witness for C5: in the LOC sample pool (r1 has 2 busy connections,
r2 none) the first candidate attempted is r2, whose busy count is
minimal. -/
theorem c5_least_outstanding_minimal_witness :
    (∀ b ∈ samplePoolLOC.candidatesFor 0 (some Role.Replica),
      samplePoolLOC.busy_connection_count addrR2 ≤ samplePoolLOC.busy_connection_count b) ∧
    (∀ c : Address, samplePoolLOC.busy_connection_count c =
      if (samplePoolLOC.pool_state c.shard c.address_index).idle_connections >
          (samplePoolLOC.pool_state c.shard c.address_index).connections then 0
      else (samplePoolLOC.pool_state c.shard c.address_index).connections -
        (samplePoolLOC.pool_state c.shard c.address_index).idle_connections) :=
  c5_least_outstanding_minimal samplePoolLOC 0 (some Role.Replica) sampleEnv
    (by decide) (List.Perm.refl _) addrR2 [addrR1] (by decide)


/-- When every candidate's checkout errors, the loop ends with the client
idle and `AllServersDown`, regardless of bans along the way. -/
theorem getLoop_all_checkout_fail (env : GetEnv) :
    ∀ (candidates : List Address) (q : ConnectionPool) (hcs : List Address),
      (∀ a ∈ candidates, env.checkout a = none) →
      (getLoop env q candidates hcs).result = Except.error Error.AllServersDown ∧
      (getLoop env q candidates hcs).client = ClientState.idle := by
  intro candidates
  induction candidates with
  | nil =>
    intro q hcs hall
    exact ⟨rfl, rfl⟩
  | cons address rest ih =>
    intro q hcs hall
    have hco : env.checkout address = none := hall address (List.mem_cons_self address rest)
    have hrest : ∀ a ∈ rest, env.checkout a = none :=
      fun a ha => hall a (List.mem_cons_of_mem address ha)
    by_cases hb : q.is_banned address
    · by_cases hu : (q.try_unban address env.now).1
      · rw [getLoop_cons_checkout_error_unbanned env q address rest hcs hb hu hco]
        exact ih _ _ hrest
      · rw [getLoop_cons_skip env q address rest hcs hb (by simpa using hu)]
        exact ih _ _ hrest
    · rw [getLoop_cons_checkout_error env q address rest hcs (by simpa using hb) hco]
      exact ih _ _ hrest

/-- Every attempted address is a candidate of the requested shard and
role. -/
theorem attemptOrder_subset (p : ConnectionPool) (shard : Nat) (role : Option Role)
    (env : GetEnv)
    (hperm : (env.shuffle (p.candidatesFor shard role)).Perm (p.candidatesFor shard role)) :
    ∀ a ∈ p.attemptOrder shard role env, a ∈ p.candidatesFor shard role := by
  intro a ha
  rw [ConnectionPool.attemptOrder] at ha
  by_cases hm :
      p.settings.load_balancing_mode = LoadBalancingMode.LeastOutstandingConnections
  · simp only [hm, if_true] at ha
    exact hperm.mem_iff.mp (((sortDescBusy_perm p _).mem_iff).mp (List.mem_reverse.mp ha))
  · simp only [hm, if_false] at ha
    exact hperm.mem_iff.mp (List.mem_reverse.mp ha)

/-- C4: inside `get`, a checkout error on the current candidate (whether
it was never banned or just unbanned) bans that address with
`FailedCheckout` and the loop continues with the remaining candidates;
and when every candidate's checkout errors, `get` marks the client idle
and returns `AllServersDown`. -/
theorem c4_checkout_error_handling (env : GetEnv) (p : ConnectionPool) (shard : Nat)
    (role : Option Role)
    (hperm : (env.shuffle (p.candidatesFor shard role)).Perm (p.candidatesFor shard role)) :
    (∀ (q : ConnectionPool) (address : Address) (rest hcs : List Address),
      q.is_banned address = false → env.checkout address = none →
      getLoop env q (address :: rest) hcs =
        getLoop env (q.ban address BanReason.FailedCheckout env.now) rest hcs) ∧
    (∀ (q : ConnectionPool) (address : Address) (rest hcs : List Address),
      q.is_banned address = true → (q.try_unban address env.now).1 = true →
      env.checkout address = none →
      getLoop env q (address :: rest) hcs =
        getLoop env
          ((q.try_unban address env.now).2.ban address BanReason.FailedCheckout env.now)
          rest hcs) ∧
    ((∀ a ∈ p.candidatesFor shard role, env.checkout a = none) →
      (p.get shard role env).result = Except.error Error.AllServersDown ∧
      (p.get shard role env).client = ClientState.idle) := by
  refine ⟨?_, ?_, ?_⟩
  · intro q address rest hcs hb hco
    exact getLoop_cons_checkout_error env q address rest hcs hb hco
  · intro q address rest hcs hb hu hco
    exact getLoop_cons_checkout_error_unbanned env q address rest hcs hb hu hco
  · intro hall
    exact getLoop_all_checkout_fail env (p.attemptOrder shard role env) p []
      (fun a ha => hall a (attemptOrder_subset p shard role env hperm a ha))

/-- Witness for C4: in the sample pool with every checkout failing, `get`
returns `AllServersDown` with the client idle. -/
theorem c4_checkout_error_handling_witness :
    ((samplePool []).get 0 (some Role.Replica) sampleEnv).result =
      Except.error Error.AllServersDown ∧
    ((samplePool []).get 0 (some Role.Replica) sampleEnv).client = ClientState.idle :=
  (c4_checkout_error_handling sampleEnv (samplePool []) 0 (some Role.Replica)
    (List.Perm.refl _)).2.2 (fun a _ => rfl)

/-- C6: for the current candidate with a checked-out session, a health
check runs iff it is forced (the address was just unbanned) or the
session's `last_activity` is more than `healthcheck_delay` ms in the
past; with no health check required the session is returned immediately
with the pool unchanged.  The five conjuncts cover every case: fresh and
unforced (no check, immediate return), stale passing, stale failing,
forced passing, and forced failing — the forced check runs even on a
fresh session, and a failed forced check re-bans the address with
`FailedHealthCheck` and continues. -/
theorem c6_healthcheck_gating (env : GetEnv) (q : ConnectionPool) (address : Address)
    (server : Server) (rest hcs : List Address)
    (hco : env.checkout address = some server) :
    (q.is_banned address = false →
      ¬ server.lastActivityElapsedMs > q.settings.healthcheck_delay →
      getLoop env q (address :: rest) hcs =
        ⟨Except.ok (server, address), q, ClientState.active, hcs⟩) ∧
    (q.is_banned address = false →
      server.lastActivityElapsedMs > q.settings.healthcheck_delay →
      env.healthOk address = true →
      getLoop env q (address :: rest) hcs =
        ⟨Except.ok (server, address), q, ClientState.active, hcs ++ [address]⟩) ∧
    (q.is_banned address = false →
      server.lastActivityElapsedMs > q.settings.healthcheck_delay →
      env.healthOk address = false →
      getLoop env q (address :: rest) hcs =
        getLoop env (q.ban address BanReason.FailedHealthCheck env.now) rest
          (hcs ++ [address])) ∧
    (q.is_banned address = true → (q.try_unban address env.now).1 = true →
      env.healthOk address = true →
      getLoop env q (address :: rest) hcs =
        ⟨Except.ok (server, address), (q.try_unban address env.now).2, ClientState.active,
          hcs ++ [address]⟩) ∧
    (q.is_banned address = true → (q.try_unban address env.now).1 = true →
      env.healthOk address = false →
      getLoop env q (address :: rest) hcs =
        getLoop env
          ((q.try_unban address env.now).2.ban address BanReason.FailedHealthCheck env.now)
          rest (hcs ++ [address])) := by
  refine ⟨?_, ?_, ?_, ?_, ?_⟩
  · intro hb hdelay
    exact getLoop_cons_fresh env q address server rest hcs hb hco hdelay
  · intro hb hdelay hok
    exact getLoop_cons_stale_ok env q address server rest hcs hb hco hdelay hok
  · intro hb hdelay hok
    exact getLoop_cons_stale_fail env q address server rest hcs hb hco hdelay hok
  · intro hb hu hok
    exact getLoop_cons_forced_ok env q address server rest hcs hb hu hco hok
  · intro hb hu hok
    exact getLoop_cons_forced_fail env q address server rest hcs hb hu hco hok

/-- Witness for C6: an unbanned candidate whose session was active 100ms
ago (below the 30000ms delay) is returned immediately, with no health
check recorded. -/
theorem c6_healthcheck_gating_witness :
    getLoop sampleEnvCheckout (samplePool []) [addrR1] [] =
      ⟨Except.ok (sampleServerFresh, addrR1), samplePool [], ClientState.active, []⟩ :=
  (c6_healthcheck_gating sampleEnvCheckout (samplePool []) addrR1 sampleServerFresh [] []
    rfl).1 (by decide) (by decide)


/-- Erasing entries whose key differs from the looked-up key does not
change a `find?`. -/
theorem find?_eraseP_disjoint {α : Type} (pk pq : α → Bool) (l : List α)
    (hdis : ∀ x ∈ l, pq x = true → pk x = false) :
    (l.eraseP pq).find? pk = l.find? pk := by
  induction l with
  | nil => rfl
  | cons x xs ih =>
    by_cases hq : pq x
    · have hkx : pk x = false := hdis x (List.mem_cons_self x xs) hq
      rw [List.eraseP_cons_of_pos hq, List.find?_cons_of_neg xs (by simp [hkx])]
    · rw [List.eraseP_cons_of_neg (by simpa using hq)]
      by_cases hk : pk x
      · rw [List.find?_cons_of_pos _ hk, List.find?_cons_of_pos _ hk]
      · rw [List.find?_cons_of_neg _ (by simpa using hk),
          List.find?_cons_of_neg _ (by simpa using hk)]
        exact ih (fun y hy => hdis y (List.mem_cons_of_mem x hy))

/-- Looking up the key just inserted yields the inserted pool. -/
theorem get_pool_poolsInsert_self (m : PoolMap) (db user : String) (pool : ConnectionPool) :
    get_pool (poolsInsert m (PoolIdentifier.new db user) pool) db user = some pool := by
  simp [get_pool, poolsInsert, List.find?_cons_of_pos]

/-- Inserting a different key does not change a lookup. -/
theorem get_pool_poolsInsert_ne (m : PoolMap) (k : PoolIdentifier) (pool : ConnectionPool)
    (db user : String) (hne : k ≠ PoolIdentifier.new db user) :
    get_pool (poolsInsert m k pool) db user = get_pool m db user := by
  rw [get_pool, poolsInsert, List.find?_cons_of_neg _ (by simpa using hne)]
  rw [find?_eraseP_disjoint _ _ m ?_]
  · rfl
  · intro x _ hx
    simp only [decide_eq_true_eq] at hx
    simp [hx, hne]

/-- Folding inserts whose keys all differ from the looked-up key does not
change a lookup. -/
theorem get_pool_foldl_untouched (f : PoolConfigEntry × User → ConnectionPool)
    (db user : String) :
    ∀ (pus : List (PoolConfigEntry × User)) (init : PoolMap),
      (∀ q ∈ pus, idOfPair q ≠ PoolIdentifier.new db user) →
      get_pool (pus.foldl (fun m q => poolsInsert m (idOfPair q) (f q)) init) db user =
        get_pool init db user := by
  intro pus
  induction pus with
  | nil => intro init _; rfl
  | cons q qus ih =>
    intro init hall
    rw [List.foldl_cons, ih _ (fun r hr => hall r (List.mem_cons_of_mem q hr)),
      get_pool_poolsInsert_ne _ _ _ _ _ (hall q (List.mem_cons_self q qus))]

/-- Looking up a pair's identifier after folding all inserts yields that
pair's value, provided the identifiers are pairwise distinct. -/
theorem get_pool_foldl_find (f : PoolConfigEntry × User → ConnectionPool) :
    ∀ (pus : List (PoolConfigEntry × User)) (init : PoolMap) (pu : PoolConfigEntry × User),
      pu ∈ pus → (pus.map idOfPair).Nodup →
      get_pool (pus.foldl (fun m q => poolsInsert m (idOfPair q) (f q)) init)
        pu.1.pool_name pu.2.username = some (f pu) := by
  intro pus
  induction pus with
  | nil =>
    intro init pu hmem
    simp at hmem
  | cons q qus ih =>
    intro init pu hmem hnodup
    rcases List.mem_cons.mp hmem with rfl | hmem2
    · rw [List.foldl_cons]
      have hq : ∀ r ∈ qus, idOfPair r ≠ PoolIdentifier.new pu.1.pool_name pu.2.username := by
        intro r hr heq
        have hnot := (List.nodup_cons.mp hnodup).1
        have hin : idOfPair r ∈ qus.map idOfPair := List.mem_map_of_mem idOfPair hr
        rw [heq] at hin
        exact hnot hin
      rw [get_pool_foldl_untouched f _ _ qus _ hq]
      exact get_pool_poolsInsert_self init pu.1.pool_name pu.2.username (f pu)
    · rw [List.foldl_cons]
      exact ih _ pu hmem2 (List.nodup_cons.mp hnodup).2

/-- `from_config` is the fold of per-(entry, user) inserts over the
flattened pair list. -/
theorem from_config_eq_foldl_pairs (old : PoolMap)
    (build_pool : PoolConfigEntry → User → ConnectionPool) (cfg : List PoolConfigEntry) :
    from_config old cfg build_pool =
      (pairsOf cfg).foldl
        (fun m pu => poolsInsert m (idOfPair pu) (valueFor old build_pool pu)) [] := by
  rw [from_config, pairsOf]
  generalize ([] : PoolMap) = init
  induction cfg generalizing init with
  | nil => rfl
  | cons e es ih =>
    rw [List.foldl_cons, List.flatMap_cons, List.foldl_append, ih]
    congr 1
    rw [List.foldl_map]
    induction e.users generalizing init with
    | nil => rfl
    | cons u us ihu =>
      rw [List.foldl_cons, List.foldl_cons, ihu]
      congr 1
      rw [valueFor, idOfPair]
      cases hp : get_pool old e.pool_name u.username with
      | none => rfl
      | some pool =>
        by_cases hh : pool.config_hash = e.hash_value
        · simp [hh]
        · simp [hh]

/-- C7: after a reload, each (pool, user) of the new configuration maps
to the previous registry's `ConnectionPool` value exactly when that pool
exists and its `config_hash` equals the new config's hash; otherwise it
maps to the freshly built pool.  The fold result is the snapshot
`POOLS.store` publishes. -/
theorem c7_reload_preservation (old : PoolMap) (cfg : List PoolConfigEntry)
    (build_pool : PoolConfigEntry → User → ConnectionPool)
    (entry : PoolConfigEntry) (user : User)
    (hmem : entry ∈ cfg) (huser : user ∈ entry.users)
    (hnodup : ((pairsOf cfg).map idOfPair).Nodup) :
    (∀ pool, get_pool old entry.pool_name user.username = some pool →
      pool.config_hash = entry.hash_value →
      get_pool (from_config old cfg build_pool) entry.pool_name user.username = some pool) ∧
    (get_pool old entry.pool_name user.username = none →
      get_pool (from_config old cfg build_pool) entry.pool_name user.username =
        some (build_pool entry user)) ∧
    (∀ pool, get_pool old entry.pool_name user.username = some pool →
      pool.config_hash ≠ entry.hash_value →
      get_pool (from_config old cfg build_pool) entry.pool_name user.username =
        some (build_pool entry user)) := by
  have hpair : (entry, user) ∈ pairsOf cfg := by
    rw [pairsOf, List.mem_flatMap]
    exact ⟨entry, hmem, List.mem_map_of_mem _ huser⟩
  have hfind := get_pool_foldl_find (valueFor old build_pool) (pairsOf cfg) []
    (entry, user) hpair hnodup
  rw [← from_config_eq_foldl_pairs old build_pool cfg] at hfind
  refine ⟨?_, ?_, ?_⟩
  · intro pool hp hh
    rw [hfind, valueFor]
    simp [hp, hh]
  · intro hp
    rw [hfind, valueFor]
    simp [hp]
  · intro pool hp hh
    rw [hfind, valueFor]
    simp [hp, hh]

/-- Witness for C7: a one-pool configuration whose hash matches the old
registry's pool yields the identical pool value after reload. -/
theorem c7_reload_preservation_witness :
    get_pool
      (from_config [(PoolIdentifier.new "pool1" "user1", samplePool [])]
        [⟨"pool1", 42, [⟨"user1", 10, none⟩]⟩]
        (fun _ _ => samplePoolLOC))
      "pool1" "user1" = some (samplePool []) :=
  (c7_reload_preservation [(PoolIdentifier.new "pool1" "user1", samplePool [])]
    [⟨"pool1", 42, [⟨"user1", 10, none⟩]⟩] (fun _ _ => samplePoolLOC)
    ⟨"pool1", 42, [⟨"user1", 10, none⟩]⟩ ⟨"user1", 10, none⟩
    (List.mem_singleton.mpr rfl) (List.mem_singleton.mpr rfl) (by decide)).1
    (samplePool []) rfl rfl


/-- Counterexample for C8: with `max_entries = 0` and an empty map the
map already holds at least `max_entries` entries, yet an admitted query
is inserted (the source guard is `len() > max_entries`, not `>=`), so
the insertion is not rejected. -/
theorem c8_counterexample_not_rejected :
    (InFlightQueryHashMap.mk true [] 0 true).map.length ≥
      (InFlightQueryHashMap.mk true [] 0 true).max_entries ∧
    inflightStatementMatch (InflightQueryData.Simple "SELECT a FROM t").statement = true ∧
    ¬ ((InFlightQueryHashMap.mk true [] 0 true).insert_into_cache
        (InflightQueryData.Simple "SELECT a FROM t")).1 = none := by
  refine ⟨Nat.le_refl 0, by decide, ?_⟩
  intro hnone
  have hsome : ((InFlightQueryHashMap.mk true [] 0 true).insert_into_cache
      (InflightQueryData.Simple "SELECT a FROM t")).1 = some "SELECT a FROM t" := by decide
  rw [hsome] at hnone
  exact Option.noConfusion hnone

/-- C8 as amended: `insert_into_cache` rejects an admitted query, leaving
the map unchanged, whenever the map already holds strictly more than
`max_entries` entries. -/
theorem c8_overfull_map_rejects (self : InFlightQueryHashMap) (query_data : InflightQueryData)
    (hadm : inflightStatementMatch query_data.statement = true)
    (hsize : self.map.length > self.max_entries) :
    self.insert_into_cache query_data = (none, self) := by
  simp [InFlightQueryHashMap.insert_into_cache, hadm, hsize]

/-- Witness for the amended C8: a map holding 2 entries with
`max_entries = 1` rejects an admitted query unchanged. -/
theorem c8_overfull_map_rejects_witness :
    (InFlightQueryHashMap.mk true [("a", 0), ("b", 1)] 1 true).insert_into_cache
        (InflightQueryData.Simple "SELECT a FROM t") =
      (none, InFlightQueryHashMap.mk true [("a", 0), ("b", 1)] 1 true) :=
  c8_overfull_map_rejects _ _ (by decide) (by decide)

/-- C9: an admitted query that passes the size guard is keyed by its
comment-stripped text: an absent key is appended with counter 0 and
returned to the caller; a present key has its counter incremented and
none is returned. -/
theorem c9_insert_semantics (self : InFlightQueryHashMap) (query_data : InflightQueryData)
    (hadm : inflightStatementMatch query_data.statement = true)
    (hsize : self.map.length ≤ self.max_entries) :
    (self.map.find?
        (fun e => decide (e.1 = query_data.sanitize_query_string.get_string)) = none →
      self.insert_into_cache query_data =
        (some query_data.sanitize_query_string.get_string,
          self.withMap (self.map ++ [(query_data.sanitize_query_string.get_string, 0)]))) ∧
    (∀ v, self.map.find?
        (fun e => decide (e.1 = query_data.sanitize_query_string.get_string)) = some v →
      self.insert_into_cache query_data =
        (none, self.withMap (self.map.map
          (fun e => if e.1 = query_data.sanitize_query_string.get_string
            then (e.1, e.2 + 1) else e)))) := by
  have hnle : ¬ self.map.length > self.max_entries := Nat.not_lt.mpr hsize
  constructor
  · intro hfind
    simp [InFlightQueryHashMap.insert_into_cache, InFlightQueryHashMap.withMap,
      hadm, hnle, hfind]
  · intro v hfind
    simp [InFlightQueryHashMap.insert_into_cache, InFlightQueryHashMap.withMap,
      hadm, hnle, hfind]

/-- Witness for C9 (scenario S5): inserting the admitted query
"SELECT a FROM t /\*x\*/" into an empty registry returns its
comment-stripped key "SELECT a FROM t " with counter 0; inserting it
again returns none and the counter becomes 1. -/
theorem c9_insert_semantics_witness :
    (InFlightQueryHashMap.mk true [] 2 true).insert_into_cache
        (InflightQueryData.Simple "SELECT a FROM t /*x*/") =
      (some "SELECT a FROM t ",
        InFlightQueryHashMap.mk true [("SELECT a FROM t ", 0)] 2 true) ∧
    (InFlightQueryHashMap.mk true [("SELECT a FROM t ", 0)] 2 true).insert_into_cache
        (InflightQueryData.Simple "SELECT a FROM t /*x*/") =
      (none, InFlightQueryHashMap.mk true [("SELECT a FROM t ", 1)] 2 true) := by
  constructor
  · exact (c9_insert_semantics (InFlightQueryHashMap.mk true [] 2 true)
      (InflightQueryData.Simple "SELECT a FROM t /*x*/") (by decide) (by decide)).1
      (by decide)
  · exact (c9_insert_semantics
      (InFlightQueryHashMap.mk true [("SELECT a FROM t ", 0)] 2 true)
      (InflightQueryData.Simple "SELECT a FROM t /*x*/") (by decide) (by decide)).2
      ("SELECT a FROM t ", 0) (by decide)


end Pgcat
